import Mathlib

/-!
Verification development for the wptc manuscript compiler.

The repository has two backends that assemble a manuscript from a YAML
outline plus Markdown fragment files:
  - a docx backend (`src/src/markdown_manuscript_formatter/main.py`),
    which builds a document object out of paragraphs made of styled runs;
  - an RTF backend (`src/compiler.py`), which emits one RTF string.

Both are shallowly embedded below.  Paragraph-level structure is modelled
explicitly; physical formatting that no claim mentions (fonts, margins,
indent twips, the running header, table borders, the author contact cell)
is elided with comments at the point of elision.  Third-party text
transforms (`smartypants.smartypants` and `html.unescape`) are modelled as
abstract function parameters, since their code is not part of this
repository; file reads are modelled by a function from paths to file
results.
-/

set_option autoImplicit false

namespace Wptc

/-! ### Python-style character and string helpers -/

/-- The whitespace characters recognised by Python `str.strip`, `str.split`
and the regex class used by the sources (ASCII range). -/
def pyIsSpace (c : Char) : Bool :=
  c == ' ' || c == '\t' || c == '\n' || c == '\r' || c == '\x0b' || c == '\x0c'

/-- Python `str.lstrip()` on a character list. -/
def pyLStrip (cs : List Char) : List Char := cs.dropWhile pyIsSpace

/-- Python `str.strip()` on a character list. -/
def pyStrip (cs : List Char) : List Char :=
  ((cs.dropWhile pyIsSpace).reverse.dropWhile pyIsSpace).reverse

/-- Accumulator pass of Python `str.split()` with no separator:
split on runs of whitespace, discarding empty pieces. -/
def splitWsAux : List Char → List Char → List (List Char)
  | [], acc => if acc.isEmpty then [] else [acc.reverse]
  | c :: rest, acc =>
    if pyIsSpace c then
      if acc.isEmpty then splitWsAux rest [] else acc.reverse :: splitWsAux rest []
    else splitWsAux rest (c :: acc)

/-- Python `s.split()`: whitespace-delimited tokens of `s`. -/
def pySplitWs (s : String) : List (List Char) := splitWsAux s.toList []

/-- Python length of the whitespace split: the number of tokens. -/
def countWords (s : String) : Nat := (pySplitWs s).length

/-- Python `s.split(sep)` for a one-character separator.
`splitOnChar c "" = [""]`, as in Python. -/
def splitOnChar (sep : Char) : List Char → List (List Char)
  | [] => [[]]
  | c :: rest =>
    if c = sep then [] :: splitOnChar sep rest
    else
      match splitOnChar sep rest with
      | [] => [[c]]
      | h :: t => (c :: h) :: t

/-- Iterating over a Python file handle: the lines of the content, each
keeping its trailing newline (the final line may lack one);
an empty content yields no lines. -/
def linesWithNL : List Char → List (List Char)
  | [] => []
  | c :: rest =>
    if c = '\n' then ['\n'] :: linesWithNL rest
    else
      match linesWithNL rest with
      | [] => [[c]]
      | l :: ls => (c :: l) :: ls

/-- Number of leading hash marks. -/
def leadingHashes (cs : List Char) : Nat := (cs.takeWhile (fun c => c == '#')).length

/-- The heading-line regex check used by both backends (`re.match` with
the pattern of one to six leading hash marks followed by a whitespace
character). -/
def isHeadingLine (cs : List Char) : Bool :=
  let k := leadingHashes cs
  decide (1 ≤ k) && decide (k ≤ 6) &&
    (match cs.drop k with
     | d :: _ => pyIsSpace d
     | [] => false)

/-- Whether `pat` is a prefix of `cs`. -/
def startsWithPat : List Char → List Char → Bool
  | [], _ => true
  | _ :: _, [] => false
  | p :: ps, c :: cs => p == c && startsWithPat ps cs

/-- Whether `pat` occurs as a contiguous substring of `cs`
(Python `pat in text`). -/
def containsSub (pat : List Char) : List Char → Bool
  | [] => startsWithPat pat []
  | c :: rest => startsWithPat pat (c :: rest) || containsSub pat rest

/-- Insert a comma after every third character; applied to a reversed
digit string this realises the thousands grouping of Python `format(n, ',')`. -/
def commaGroupRev : List Char → List Char
  | [] => []
  | [a] => [a]
  | [a, b] => [a, b]
  | [a, b, c] => [a, b, c]
  | a :: b :: c :: d :: rest => a :: b :: c :: ',' :: commaGroupRev (d :: rest)

/-- Python thousands-separated formatting of a natural number. -/
def commaFmt (n : Nat) : String :=
  String.mk (commaGroupRev (Nat.repr n).toList.reverse).reverse

/-- Model of Python `int(round(n / 100.0))`: division by 100 rounded
half-to-even (Python 3 rounds halves to even; for word counts in realistic
range the float quotient is exact at ties, so this is the float result). -/
def pyRoundHalfEven100 (n : Nat) : Nat :=
  let q := n / 100
  let r := n % 100
  if r < 50 then q
  else if 50 < r then q + 1
  else if q % 2 = 0 then q else q + 1

/-! ### The document model (docx backend) -/

/-- Paragraph alignment; `left` also stands for the python-docx default
(`None`) alignment. -/
inductive Align where
  | left
  | center
  | right
deriving DecidableEq, Repr

/-- A styled run inside a paragraph: `run.bold`/`run.italic` as set by
`add_smart_text`; `false` also stands for the python-docx inherited (`None`)
formatting on runs added without explicit flags. -/
structure Span where
  text : String
  bold : Bool
  italic : Bool
deriving DecidableEq, Repr

/-- One entry of `doc.paragraphs`: an ordinary paragraph of runs, or the
empty paragraph holding a page-break run (`doc.add_page_break()`). -/
inductive DPara where
  | para (runs : List Span) (align : Align)
  | pageBreakPara
deriving DecidableEq, Repr

/-- Model of `para.text` in python-docx: concatenation of run texts; a page-break
paragraph has empty text. -/
def paraText : DPara → String
  | .para runs _ => runs.foldl (fun a r => a ++ r.text) ""
  | .pageBreakPara => ""

/-! ### The inline formatter of the docx backend (`add_smart_text`) -/

/-- A piece of the `re.split` tokenization of `add_smart_text`: either a
markdown token or a literal text segment.  Empty literal segments are never
produced here (the Python code skips them with `elif token:`). -/
inductive Tok where
  | text (s : List Char)
  | mark (s : List Char)
deriving DecidableEq, Repr

/-- The `re.split` tokenization of `add_smart_text`, splitting on runs of
one to three stars or a single underscore; the star alternative is
greedy, so runs of stars are cut into tokens of at most three. -/
def tokenizeMd : List Char → List Tok
  | [] => []
  | '*' :: '*' :: '*' :: rest => .mark ['*', '*', '*'] :: tokenizeMd rest
  | '*' :: '*' :: rest => .mark ['*', '*'] :: tokenizeMd rest
  | '*' :: rest => .mark ['*'] :: tokenizeMd rest
  | '_' :: rest => .mark ['_'] :: tokenizeMd rest
  | c :: rest =>
    match tokenizeMd rest with
    | .text s :: ts => .text (c :: s) :: ts
    | ts => .text [c] :: ts

/-- The third-party text transforms used by the docx backend, taken as
parameters: `smarty` models `smartypants.smartypants` and `unesc` models
`html.unescape`. -/
structure TextFx where
  smarty : String → String
  unesc : String → String

/-- The per-token transform `html.unescape(smartypants.smartypants(token))`. -/
def spTok (fx : TextFx) (s : String) : String := fx.unesc (fx.smarty s)

/-- The toggle loop of `add_smart_text`: `***` flips bold and italic,
`**` flips bold, `*` and `_` flip italic, and each nonempty literal
segment becomes a run with the current flags. -/
def runsAux (fx : TextFx) (b i : Bool) : List Tok → List Span
  | [] => []
  | .mark m :: ts =>
    if m = ['*', '*', '*'] then runsAux fx (!b) (!i) ts
    else if m = ['*', '*'] then runsAux fx (!b) i ts
    else runsAux fx b (!i) ts
  | .text s :: ts => ⟨spTok fx (String.mk s), b, i⟩ :: runsAux fx b i ts

/-- Model of `add_smart_text`: the list of runs added to the
paragraph. -/
def add_smart_text (fx : TextFx) (cs : List Char) : List Span :=
  runsAux fx false false (tokenizeMd cs)

/-! ### File system model -/

/-- Result of opening and reading one file. -/
inductive FileRes where
  | ok (content : String)
  | missing
  | ioError (msg : String)
deriving DecidableEq, Repr

/-- The file system seen by one compilation run. -/
def FS := String → FileRes

/-! ### Outline data model

YAML nodes are dictionaries probed by key; a chapter or text node carries
optional `number`, `title`, `file`, `files` keys (scalar values embedded
as their formatted strings), and a part item additionally carries a
`content` list of chapter nodes. -/

structure ChapterData where
  number : Option String := none
  title : Option String := none
  file : Option String := none
  files : Option (List String) := none
deriving DecidableEq, Repr

structure ItemData where
  ty : String
  data : ChapterData := {}
  content : List ChapterData := []
deriving DecidableEq, Repr

/-- The configuration read from the YAML file; only the keys the code
reads are modelled.  `includeTitlePage` models the truthiness of
the `include_title_page` metadata key with default `True`. -/
structure Config where
  legalName : Option String := none
  address : Option String := none
  phone : Option String := none
  email : Option String := none
  title : Option String := none
  byline : Option String := none
  storyTypeRaw : Option String := none
  wordCountMeta : Nat := 0
  fileName : Option String := none
  includeTitlePage : Bool := true
  items : List ItemData := []

/-- Python string lowercasing, character by character (the story types
involved are ASCII). -/
def pyLower (s : String) : String := String.mk (s.toList.map Char.toLower)

/-- Python string uppercasing, character by character. -/
def pyUpper (s : String) : String := String.mk (s.toList.map Char.toUpper)

/-- The `story_type` metadata key, defaulted to `novel` and lowercased. -/
def storyTypeOf (cfg : Config) : String := pyLower (cfg.storyTypeRaw.getD "novel")

/-- Outcome of reading and parsing the configuration file. -/
inductive ConfigSrc where
  | missing
  | parseError (msg : String)
  | ok (cfg : Config)

namespace Docx

/-! ### Fragment loader (docx backend, `append_file_content`) -/

/-- One line of a fragment, after `para_text = para_text.strip()`:
skipped if empty, a markdown heading, or a `%` comment; otherwise a
left-aligned body paragraph whose runs come from `add_smart_text`.
(The physical formatting set on the paragraph - first-line indent,
double spacing, zero spacing before and after - is elided.) -/
def paraOfLine (fx : TextFx) (line : List Char) : Option DPara :=
  if (pyStrip line).isEmpty then none
  else if isHeadingLine (pyStrip line) then none
  else if (pyStrip line).headI = '%' then none
  else some (.para (add_smart_text fx (pyStrip line)) .left)

/-- Model of `append_file_content` of the docx backend: the paragraphs appended to the
document and the console messages printed.  A missing file warns and
contributes nothing; any other read error is reported and likewise
contributes nothing; no exception escapes. -/
def append_file_content (fx : TextFx) (fs : FS) (filepath : String) :
    List DPara × List String :=
  match fs filepath with
  | .ok content =>
    ((splitOnChar '\n' content.toList).filterMap (paraOfLine fx), [])
  | .missing =>
    ([], ["--> WARNING: Could not find file: " ++ filepath ++ ". It will be skipped."])
  | .ioError e =>
    ([], ["--> ERROR: An error occurred reading " ++ filepath ++ ": " ++ e])

/-! ### Chapter / text processor (docx backend) -/

/-- Concatenation of two emission results (paragraphs, messages). -/
def comb (x y : List DPara × List String) : List DPara × List String :=
  (x.1 ++ y.1, x.2 ++ y.2)

/-- The `heading` list built by `process_chapter`: the word Chapter plus
the number if `number` is present, then `title` if present. -/
def headingList (c : ChapterData) : List String :=
  (match c.number with
   | some n => ["Chapter " ++ n]
   | none => []) ++
  (match c.title with
   | some t => [t]
   | none => [])

/-- Python `": ".join(parts)`. -/
def joinColon : List String → String
  | [] => ""
  | [x] => x
  | x :: xs => x ++ ": " ++ joinColon xs

/-- The heading paragraphs of `process_chapter`: when the heading list is
nonempty, one centered bold paragraph whose text is
`smartypants.smartypants(": ".join(heading))`, followed by one blank
spacer paragraph; otherwise nothing. -/
def headingParas (fx : TextFx) (c : ChapterData) : List DPara :=
  if headingList c = [] then []
  else
    [.para [⟨fx.smarty (joinColon (headingList c)), true, false⟩] .center,
     .para [] .left]

/-- The centered scene-break paragraph `doc.add_paragraph('#')`. -/
def scene_break_para : DPara := .para [⟨"#", false, false⟩] .center

/-- The `files` loop shared verbatim by `process_chapter` and
`process_text_item`: the content of each file in order, with a scene-break
paragraph after every file except the last. -/
def emit_files (fx : TextFx) (fs : FS) : List String → List DPara × List String
  | [] => ([], [])
  | [p] => append_file_content fx fs p
  | p :: q :: rest =>
    comb (append_file_content fx fs p)
      (comb ([scene_break_para], []) (emit_files fx fs (q :: rest)))

/-- Body emission of a chapter or text node: the `file` key wins, else the
`files` list, else nothing. -/
def chapter_body (fx : TextFx) (fs : FS) (c : ChapterData) :
    List DPara × List String :=
  match c.file with
  | some f => append_file_content fx fs f
  | none =>
    match c.files with
    | some ps => emit_files fx fs ps
    | none => ([], [])

/-- Model of `process_chapter` of the docx backend (the `story_type`
parameter is unused by the source function). -/
def process_chapter (fx : TextFx) (fs : FS) (c : ChapterData) :
    List DPara × List String :=
  comb (headingParas fx c, []) (chapter_body fx fs c)

/-- Model of `process_text_item`: the same file/files logic as
`process_chapter`, duplicated in the source, with no heading step. -/
def process_text_item (fx : TextFx) (fs : FS) (c : ChapterData) :
    List DPara × List String :=
  chapter_body fx fs c

/-! ### Manuscript assembler (docx backend) -/

/-- The separator inserted before a non-first item (or non-first chapter
of a part): a page break for `novel`, a blank spacer paragraph for
`short_story`, and nothing for any other story type. -/
def sepParas (st : String) : List DPara :=
  if st = "novel" then [.pageBreakPara]
  else if st = "short_story" then [.para [] .left]
  else []

/-- The chapter loop inside a `part` item: a separator before every
chapter except the first. -/
def chaptersLoop (fx : TextFx) (fs : FS) (st : String) :
    Bool → List ChapterData → List DPara × List String
  | _, [] => ([], [])
  | first, c :: rest =>
    comb (if first then ([], []) else (sepParas st, []))
      (comb (process_chapter fx fs c) (chaptersLoop fx fs st false rest))

/-- Dispatch on the item type key: `part`, `chapter`, `text`, else a
warning and nothing. -/
def process_item (fx : TextFx) (fs : FS) (st : String) (it : ItemData) :
    List DPara × List String :=
  if it.ty = "part" then
    comb
      ([.para [⟨fx.smarty (pyUpper (it.data.title.getD "Untitled Part")), true, false⟩]
          .center,
        .para [] .left], [])
      (chaptersLoop fx fs st true it.content)
  else if it.ty = "chapter" then process_chapter fx fs it.data
  else if it.ty = "text" then process_text_item fx fs it.data
  else ([], ["--> WARNING: Unknown structure type \x27" ++ it.ty ++ "\x27 found. Skipping."])

/-- The top-level structure loop: a separator before every item except
the first content item. -/
def structureLoop (fx : TextFx) (fs : FS) (st : String) :
    Bool → List ItemData → List DPara × List String
  | _, [] => ([], [])
  | first, it :: rest =>
    comb (if first then ([], []) else (sepParas st, []))
      (comb (process_item fx fs st it) (structureLoop fx fs st false rest))

/-! ### Title page and document assembly (docx backend) -/

/-- The placeholder paragraph put in the word-count cell of the title
page table. -/
def placeholderText : String := "Approx. _WORD_COUNT_PLACEHOLDER_ words"

/-- The top-level paragraphs added by `create_title_page`: eight blank
spacers, the centered bold uppercased title, the centered byline, then a
page break (novel) or three more blank spacers (other story types).
The 1x2 contact/word-count table is not part of `doc.paragraphs` and its
contact cell is elided; the word-count cell is modelled separately. -/
def title_page_paras (cfg : Config) (st : String) : List DPara :=
  List.replicate 8 (.para [] .left) ++
  [.para [⟨pyUpper (cfg.title.getD "Untitled Novel"), true, false⟩] .center,
   .para [⟨"by\n" ++ cfg.byline.getD "Anonymous", false, false⟩] .center] ++
  (if st = "novel" then [.pageBreakPara]
   else [.para [] .left, .para [] .left, .para [] .left])

/-- The final centered end-mark paragraph of three spaced hash marks. -/
def endMarkPara : DPara := .para [⟨"#  #  #", false, false⟩] .center

/-- The document: its top-level paragraphs (`doc.paragraphs`) and the
paragraph texts of the word-count cell `doc.tables[0].cell(0, 1)`.
(The running header added by `setup_header` lives in the section header,
not in `doc.paragraphs`, and is elided.) -/
structure Doc where
  paragraphs : List DPara
  titleCell : List String
deriving DecidableEq, Repr

/-- Steps 1-3 of `compile_manuscript` after a successful config parse:
optional title page, the structure loop, the unconditional final page
break and end mark.  Returns the document and the warnings printed. -/
def buildDoc (fx : TextFx) (fs : FS) (cfg : Config) : Doc × List String :=
  let st := storyTypeOf cfg
  let tp := if cfg.includeTitlePage then title_page_paras cfg st else []
  let cell := if cfg.includeTitlePage then [placeholderText] else []
  let body := structureLoop fx fs st true cfg.items
  ({ paragraphs := tp ++ body.1 ++ [.pageBreakPara, endMarkPara],
     titleCell := cell }, body.2)

/-- The `total_words` sum of `calculate_and_update_word_count`: the sum over
`doc.paragraphs` of `len(para.text.split())`. -/
def total_words (d : Doc) : Nat :=
  (d.paragraphs.map (fun p => countWords (paraText p))).sum

/-- Model of `calculate_and_update_word_count`: round the total to the
nearest hundred and overwrite every word-count-cell paragraph containing
the placeholder with the formatted count. -/
def calculate_and_update_word_count (d : Doc) : Doc :=
  let rounded := pyRoundHalfEven100 (total_words d) * 100
  { d with
    titleCell :=
      d.titleCell.map fun t =>
        if containsSub "_WORD_COUNT_PLACEHOLDER_".toList t.toList then
          "Approx. " ++ commaFmt rounded ++ " words"
        else t }

/-- Outcome of `compile_manuscript`: a fatal config error (printed, no
output file opened), or a finished document saved to the returned path. -/
inductive Outcome where
  | fatal (msg : String)
  | done (doc : Doc) (warnings : List String) (outPath : String)

/-- Model of `compile_manuscript` of the docx backend.
Directory creation and the `doc.save` side effect are represented by the
returned path. -/
def compile_manuscript (fx : TextFx) (fs : FS) (src : ConfigSrc)
    (configFile outputDir : String) : Outcome :=
  match src with
  | .missing =>
    .fatal ("--> FATAL ERROR: The configuration file \x27" ++ configFile ++
      "\x27 was not found.")
  | .parseError e =>
    .fatal ("--> FATAL ERROR: There was an error parsing the YAML file: " ++ e)
  | .ok cfg =>
    let built := buildDoc fx fs cfg
    let d := if cfg.includeTitlePage then calculate_and_update_word_count built.1
             else built.1
    .done d built.2 (outputDir ++ "/" ++ cfg.fileName.getD "manuscript.docx")

end Docx

namespace Rtf

/-! ### The RTF backend (`src/compiler.py`)

`convert_to_rtf` is a chain of `str.replace` calls and non-greedy
`re.sub` replacements over fixed delimiters.  For these patterns a
leftmost match starts at the first occurrence of the delimiter that has a
later disjoint occurrence, its non-greedy content ends at the next
occurrence, and scanning resumes after the replacement; the functions
below implement exactly that.  They are written with an explicit fuel
argument (the length of the input suffices) so that they reduce in the
kernel. -/

/-- Split `cs` at the first occurrence of `pat`: the part before the
occurrence and the part after it. -/
def findSplitP (pat : List Char) : List Char → Option (List Char × List Char)
  | [] => if startsWithPat pat [] then some ([], []) else none
  | c :: rest =>
    if startsWithPat pat (c :: rest) then some ([], (c :: rest).drop pat.length)
    else
      match findSplitP pat rest with
      | some (b, a) => some (c :: b, a)
      | none => none

/-- Fueled worker for `pyReplace`. -/
def pyReplaceF : Nat → List Char → List Char → List Char → List Char
  | 0, _, _, cs => cs
  | f + 1, pat, rep, cs =>
    match findSplitP pat cs with
    | none => cs
    | some (b, a) => b ++ rep ++ pyReplaceF f pat rep a

/-- Python `text.replace(pat, rep)` for a nonempty `pat`: replace
non-overlapping occurrences left to right. -/
def pyReplace (pat rep cs : List Char) : List Char := pyReplaceF cs.length pat rep cs

/-- Fueled worker for `subDelim`. -/
def subDelimF : Nat → List Char → List Char → List Char → List Char → List Char
  | 0, _, _, _, cs => cs
  | f + 1, pat, pre, post, cs =>
    match findSplitP pat cs with
    | none => cs
    | some (b, rest) =>
      match findSplitP pat rest with
      | none => cs
      | some (mid, rest2) => b ++ pre ++ mid ++ post ++ subDelimF f pat pre post rest2

/-- The non-greedy `re.sub` replacement over a fixed delimiter `pat`
(pattern: delimiter, lazy group, delimiter, with DOTALL): wrap the
content between consecutive
delimiter occurrences, leftmost-shortest, resuming after each
replacement; a delimiter with no later closer is left as it stands. -/
def subDelim (pat pre post cs : List Char) : List Char :=
  subDelimF cs.length pat pre post cs

/-- The RTF group openers used by `convert_to_rtf`. -/
def boldItalicPre : List Char := '\x7b' :: "\\b\\i ".toList

def boldPre : List Char := '\x7b' :: "\\b ".toList

def italicPre : List Char := '\x7b' :: "\\i ".toList

/-- Body of `convert_to_rtf` on a character list: escape RTF specials, then the
`***`, `**`, `*`, `_` substitutions, then em-dash and paragraph-break
replacement, in the source order. -/
def convChars (cs : List Char) : List Char :=
  let t1 := pyReplace ['\\'] ['\\', '\\'] cs
  let t2 := pyReplace ['\x7b'] ['\\', '\x7b'] t1
  let t3 := pyReplace ['\x7d'] ['\\', '\x7d'] t2
  let t4 := subDelim ['*', '*', '*'] boldItalicPre ['\x7d'] t3
  let t5 := subDelim ['*', '*'] boldPre ['\x7d'] t4
  let t6 := subDelim ['*'] italicPre ['\x7d'] t5
  let t7 := subDelim ['_'] italicPre ['\x7d'] t6
  let t8 := pyReplace ['-', '-', '-'] "\\emdash ".toList t7
  pyReplace ['\n'] "\\par\n".toList t8

/-- Model of `convert_to_rtf`. -/
def convert_to_rtf (s : String) : String := String.mk (convChars s.toList)

/-! ### Fragment loader, chapter processor and assembler (RTF backend) -/

/-- The RTF backend keeps a line unless the heading regex matches the
left-stripped line. -/
def rtfKeepLine (line : List Char) : Bool := !isHeadingLine (pyLStrip line)

/-- Model of `append_file_content` of the RTF backend: the text
written to the output and the console messages.  Heading lines are
dropped, the remainder is stripped, converted and wrapped in the body
formatting group; errors contribute nothing and never escape. -/
def append_file_content (fs : FS) (filepath : String) : String × List String :=
  match fs filepath with
  | .ok content =>
    let kept := (linesWithNL content.toList).filter rtfKeepLine
    let block := pyStrip kept.flatten
    (String.mk ('\x7b' :: "\\f1\\fs24\\sl480\\fi720 ".toList ++ convChars block ++
      "\\par\n".toList ++ ['\x7d']), [])
  | .missing =>
    ("", ["--> WARNING: Could not find file: " ++ filepath ++ ". It will be skipped."])
  | .ioError e =>
    ("", ["--> ERROR: An error occurred reading " ++ filepath ++ ": " ++ e])

/-- Concatenation of two RTF emission results. -/
def rcomb (x y : String × List String) : String × List String :=
  (x.1 ++ y.1, x.2 ++ y.2)

/-- The centered scene-break group written between files. -/
def scene_break_rtf : String :=
  String.mk ('\x7b' :: "\\f1\\fs24\\qc # \\par".toList ++ ['\x7d', '\n'])

/-- The `files` loop of the RTF `process_chapter`. -/
def emit_files (fs : FS) : List String → String × List String
  | [] => ("", [])
  | [p] => append_file_content fs p
  | p :: q :: rest =>
    rcomb (append_file_content fs p)
      (rcomb (scene_break_rtf, []) (emit_files fs (q :: rest)))

/-- Model of `process_chapter` of the RTF backend: optional
centered bold heading group, then the file or files body. -/
def process_chapter (fs : FS) (c : ChapterData) : String × List String :=
  let heading :=
    if Docx.headingList c = [] then ""
    else
      String.mk ('\x7b' :: "\\f1\\fs24\\qc\\b ".toList ++
        convChars (Docx.joinColon (Docx.headingList c)).toList ++
        ['\x7d']) ++ "\\par\\par\n"
  let body :=
    match c.file with
    | some f => append_file_content fs f
    | none =>
      match c.files with
      | some ps => emit_files fs ps
      | none => ("", [])
  (heading ++ body.1, body.2)

/-- The chapter loop inside a `part`: `\page` before every chapter except
the first. -/
def chaptersLoop (fs : FS) : Bool → List ChapterData → String × List String
  | _, [] => ("", [])
  | first, c :: rest =>
    rcomb (if first then ("", []) else ("\\page\n", []))
      (rcomb (process_chapter fs c) (chaptersLoop fs false rest))

/-- Dispatch on the item type key in the RTF backend: only `part` and
`chapter` are recognised; anything else - including `text` - is skipped
with an unknown-type warning. -/
def process_item (fs : FS) (it : ItemData) : String × List String :=
  if it.ty = "part" then
    rcomb
      (String.mk ('\x7b' :: "\\f1\\fs24\\qc\\b ".toList ++
        convChars (pyUpper (it.data.title.getD "Untitled Part")).toList ++
        ['\x7d']) ++ "\\par\\par\\par\n", [])
      (chaptersLoop fs true it.content)
  else if it.ty = "chapter" then process_chapter fs it.data
  else ("", ["--> WARNING: Unknown structure type \x27" ++ it.ty ++ "\x27 found. Skipping."])

/-- The top-level structure loop of the RTF backend: `\page` before every
item except the first, for every story type. -/
def structureLoop (fs : FS) : Bool → List ItemData → String × List String
  | _, [] => ("", [])
  | first, it :: rest =>
    rcomb (if first then ("", []) else ("\\page\n", []))
      (rcomb (process_item fs it) (structureLoop fs false rest))

/-- Model of `create_title_page` of the RTF backend. -/
def create_title_page (cfg : Config) : String :=
  String.mk ('\x7b' :: "\\f1\\fs24 ".toList) ++
  convert_to_rtf (cfg.legalName.getD "") ++
  (match cfg.address with
   | some a => convert_to_rtf ("\n" ++ a)
   | none => "") ++
  convert_to_rtf ("\n" ++ cfg.phone.getD "") ++
  convert_to_rtf ("\n" ++ cfg.email.getD "" ++ "\n\n") ++
  convert_to_rtf ("Approx. " ++ commaFmt cfg.wordCountMeta ++ " words\n\n\n\n") ++
  String.mk ('\x7b' :: "\\qc ".toList) ++
  String.mk ('\x7b' :: "\\b ".toList) ++
  convert_to_rtf (pyUpper (cfg.title.getD "Untitled Novel")) ++
  String.mk ['\x7d'] ++ "\\par\\par\n" ++
  convert_to_rtf ("by\n" ++ cfg.byline.getD "Anonymous") ++
  (" \\par" ++ String.mk ['\x7d'] ++ "\n") ++
  "\\page\n" ++ String.mk ['\x7d']

/-- Outcome of the RTF `compile_manuscript`. -/
inductive ROutcome where
  | fatal (msg : String)
  | done (output : String) (warnings : List String) (outPath : String)
deriving DecidableEq, Repr

/-- The fixed RTF document header written before the title page. -/
def rtfHeader : String :=
  String.mk ('\x7b' :: "\\rtf1\\ansi\\deff0\\nouicompat\n".toList) ++
  String.mk ('\x7b' :: "\\fonttbl".toList ++ '\x7b' ::
    "\\f1\\fnil\\fcharset0 Times New Roman;".toList ++ ['\x7d', '\x7d', '\n']) ++
  "\\margl1440\\margr1440\\margt1440\\margb1440\n"

/-- The final end-mark group and RTF footer. -/
def rtfFooter : String :=
  "\\page\n" ++
  String.mk ('\x7b' :: "\\f1\\fs24\\qc #  #  #\\par".toList ++ ['\x7d', '\n']) ++
  String.mk ['\x7d']

/-- Model of `compile_manuscript` of the RTF backend;
the output file name is fixed to `manuscript.rtf`. -/
def compile_manuscript (fs : FS) (src : ConfigSrc)
    (configFile outputDir : String) : ROutcome :=
  match src with
  | .missing =>
    .fatal ("--> FATAL ERROR: The configuration file \x27" ++ configFile ++
      "\x27 was not found.")
  | .parseError e =>
    .fatal ("--> FATAL ERROR: There was an error parsing the YAML file: " ++ e)
  | .ok cfg =>
    let body := structureLoop fs true cfg.items
    .done (rtfHeader ++ create_title_page cfg ++ body.1 ++ rtfFooter)
      body.2 (outputDir ++ "/manuscript.rtf")

end Rtf

/-! ### Helper lemmas -/

/-- Concrete text transforms for witnesses: the identity on both
third-party transforms. -/
def fx0 : TextFx := ⟨id, id⟩

/-- A concrete file system for witnesses. -/
def fs0 : FS := fun _ => FileRes.ok "hello world"

theorem paraOfLine_left (fx : TextFx) (line : List Char) (d : DPara)
    (h : Docx.paraOfLine fx line = some d) :
    ∃ rs, d = DPara.para rs Align.left := by
  unfold Docx.paraOfLine at h
  split_ifs at h
  exact ⟨_, (Option.some.inj h).symm⟩

theorem sb_not_mem_afc (fx : TextFx) (fs : FS) (p : String) :
    ∀ d ∈ (Docx.append_file_content fx fs p).1, d ≠ Docx.scene_break_para := by
  intro d hd
  cases h : fs p with
  | ok content =>
    simp only [Docx.append_file_content, h] at hd
    obtain ⟨line, _, hline⟩ := List.mem_filterMap.mp hd
    obtain ⟨rs, rfl⟩ := paraOfLine_left fx line d hline
    simp [Docx.scene_break_para]
  | missing => simp [Docx.append_file_content, h] at hd
  | ioError e => simp [Docx.append_file_content, h] at hd

theorem countP_sb_afc (fx : TextFx) (fs : FS) (p : String) :
    (Docx.append_file_content fx fs p).1.countP
      (fun x => x == Docx.scene_break_para) = 0 := by
  rw [List.countP_eq_zero]
  intro a ha
  simpa using sb_not_mem_afc fx fs p a ha

theorem countP_sb_heading (fx : TextFx) (c : ChapterData) :
    (Docx.headingParas fx c).countP (fun x => x == Docx.scene_break_para) = 0 := by
  unfold Docx.headingParas
  split_ifs
  · rfl
  · simp [Docx.scene_break_para, List.countP_cons]

theorem emit_files_eq (fx : TextFx) (fs : FS) :
    ∀ ps, (Docx.emit_files fx fs ps).1
      = (List.intersperse [Docx.scene_break_para]
          (ps.map fun p => (Docx.append_file_content fx fs p).1)).flatten := by
  intro ps
  induction ps with
  | nil => rfl
  | cons p rest ih =>
    cases rest with
    | nil => simp [Docx.emit_files, List.intersperse]
    | cons q rest2 =>
      simp [Docx.emit_files, Docx.comb, List.intersperse_cons_cons, ih]

theorem countP_sb_emit (fx : TextFx) (fs : FS) :
    ∀ ps, (Docx.emit_files fx fs ps).1.countP
      (fun x => x == Docx.scene_break_para) = ps.length - 1 := by
  intro ps
  induction ps with
  | nil => rfl
  | cons p rest ih =>
    cases rest with
    | nil => simpa [Docx.emit_files] using countP_sb_afc fx fs p
    | cons q rest2 =>
      simp [Docx.emit_files, Docx.comb, List.countP_append, List.countP_cons,
        countP_sb_afc, ih]

theorem structureLoop_false (fx : TextFx) (fs : FS) (st : String) :
    ∀ items, (Docx.structureLoop fx fs st false items).1
      = (items.map fun it =>
          Docx.sepParas st ++ (Docx.process_item fx fs st it).1).flatten := by
  intro items
  induction items with
  | nil => rfl
  | cons it rest ih => simp [Docx.structureLoop, Docx.comb, ih]

/-! ### Claim theorems -/

/-- C7: for every chapter node, the emitted heading is the present parts
of the list of Chapter-number part and title part joined with colon-space
(then passed
through the smart-punctuation transform), rendered as one centered bold
paragraph followed by one blank spacer paragraph; if neither `number`
nor `title` is present, no heading paragraph is emitted. -/
theorem C7_heading_composition (fx : TextFx) (fs : FS) (c : ChapterData) :
    (Docx.process_chapter fx fs c).1
      = Docx.headingParas fx c ++ (Docx.chapter_body fx fs c).1
    ∧ Docx.headingParas fx c =
      (match c.number, c.title with
       | some n, some t =>
         [DPara.para [⟨fx.smarty ("Chapter " ++ n ++ ": " ++ t), true, false⟩]
            Align.center,
          DPara.para [] Align.left]
       | some n, none =>
         [DPara.para [⟨fx.smarty ("Chapter " ++ n), true, false⟩] Align.center,
          DPara.para [] Align.left]
       | none, some t =>
         [DPara.para [⟨fx.smarty t, true, false⟩] Align.center,
          DPara.para [] Align.left]
       | none, none => []) := by
  refine ⟨rfl, ?_⟩
  rcases c with ⟨num, tit, f, fls⟩
  cases num <;> cases tit <;>
    simp [Docx.headingParas, Docx.headingList, Docx.joinColon]

/-- C6: when the config file is missing or fails to parse, both backends
return a fatal-error outcome carrying the printed message and never an
output document (the output file is never opened on this path). -/
theorem C6_fatal_config_error (fx : TextFx) (fs : FS) (cf od e : String) :
    Docx.compile_manuscript fx fs .missing cf od
      = .fatal ("--> FATAL ERROR: The configuration file \x27" ++ cf ++
          "\x27 was not found.")
    ∧ Docx.compile_manuscript fx fs (.parseError e) cf od
      = .fatal ("--> FATAL ERROR: There was an error parsing the YAML file: " ++ e)
    ∧ (∀ d w pa, Docx.compile_manuscript fx fs .missing cf od ≠ .done d w pa)
    ∧ (∀ d w pa, Docx.compile_manuscript fx fs (.parseError e) cf od ≠ .done d w pa)
    ∧ Rtf.compile_manuscript fs .missing cf od
      = .fatal ("--> FATAL ERROR: The configuration file \x27" ++ cf ++
          "\x27 was not found.")
    ∧ Rtf.compile_manuscript fs (.parseError e) cf od
      = .fatal ("--> FATAL ERROR: There was an error parsing the YAML file: " ++ e)
    ∧ (∀ o w pa, Rtf.compile_manuscript fs .missing cf od ≠ .done o w pa)
    ∧ (∀ o w pa, Rtf.compile_manuscript fs (.parseError e) cf od ≠ .done o w pa) := by
  refine ⟨rfl, rfl, ?_, ?_, rfl, rfl, ?_, ?_⟩ <;>
    intro x y z h <;>
    simp [Docx.compile_manuscript, Rtf.compile_manuscript] at h

/-- C10: when a chapter or text node carries both a `file` key and a
`files` list, processing uses only the single `file` entry: the body is
exactly the content of that file, the `files` list contributes nothing, and no
scene break is emitted. -/
theorem C10_file_key_wins (fx : TextFx) (fs : FS) (c : ChapterData)
    (f : String) (ps : List String)
    (h1 : c.file = some f) (h2 : c.files = some ps) :
    Docx.chapter_body fx fs c = Docx.append_file_content fx fs f
    ∧ Docx.process_text_item fx fs c = Docx.append_file_content fx fs f
    ∧ (Docx.chapter_body fx fs c).1.countP
        (fun x => x == Docx.scene_break_para) = 0 := by
  have hb : Docx.chapter_body fx fs c = Docx.append_file_content fx fs f := by
    simp [Docx.chapter_body, h1]
  refine ⟨hb, hb, ?_⟩
  rw [hb]
  exact countP_sb_afc fx fs f

theorem C10_file_key_wins_witness :
    (⟨none, none, some "a.md", some ["b.md", "c.md"]⟩ : ChapterData).file = some "a.md"
    ∧ (⟨none, none, some "a.md", some ["b.md", "c.md"]⟩ : ChapterData).files
        = some ["b.md", "c.md"]
    ∧ Docx.chapter_body fx0 fs0 ⟨none, none, some "a.md", some ["b.md", "c.md"]⟩
        = Docx.append_file_content fx0 fs0 "a.md" :=
  ⟨rfl, rfl,
    (C10_file_key_wins fx0 fs0 ⟨none, none, some "a.md", some ["b.md", "c.md"]⟩
      "a.md" ["b.md", "c.md"] rfl rfl).1⟩

/-- C1: a chapter or text node whose body is a list of n files (n at
least 1) emits the content of the files in order with exactly n-1 centered
scene-break paragraphs containing a literal hash mark, one between each
pair of consecutive files and none before the first or after the last. -/
theorem C1_scene_breaks (fx : TextFx) (fs : FS) (c : ChapterData)
    (ps : List String)
    (h1 : c.file = none) (h2 : c.files = some ps) (h3 : ps ≠ []) :
    (Docx.process_chapter fx fs c).1
      = Docx.headingParas fx c ++
        (List.intersperse [Docx.scene_break_para]
          (ps.map fun p => (Docx.append_file_content fx fs p).1)).flatten
    ∧ (Docx.process_text_item fx fs c).1
      = (List.intersperse [Docx.scene_break_para]
          (ps.map fun p => (Docx.append_file_content fx fs p).1)).flatten
    ∧ (Docx.process_chapter fx fs c).1.countP
        (fun x => x == Docx.scene_break_para) = ps.length - 1
    ∧ Docx.scene_break_para = DPara.para [⟨"#", false, false⟩] Align.center := by
  have hb : Docx.chapter_body fx fs c = Docx.emit_files fx fs ps := by
    simp [Docx.chapter_body, h1, h2]
  have hpc : (Docx.process_chapter fx fs c).1
      = Docx.headingParas fx c ++ (Docx.chapter_body fx fs c).1 := rfl
  refine ⟨?_, ?_, ?_, rfl⟩
  · rw [hpc, hb, emit_files_eq]
  · show (Docx.chapter_body fx fs c).1 = _
    rw [hb, emit_files_eq]
  · rw [hpc, List.countP_append, countP_sb_heading, hb, countP_sb_emit]
    exact Nat.zero_add _

theorem C1_scene_breaks_witness :
    (⟨none, none, none, some ["a.md", "b.md"]⟩ : ChapterData).file = none
    ∧ (["a.md", "b.md"] : List String) ≠ []
    ∧ (Docx.process_chapter fx0 fs0 ⟨none, none, none, some ["a.md", "b.md"]⟩).1.countP
        (fun x => x == Docx.scene_break_para) = 2 - 1 :=
  ⟨rfl, by decide,
    (C1_scene_breaks fx0 fs0 ⟨none, none, none, some ["a.md", "b.md"]⟩
      ["a.md", "b.md"] rfl rfl (by decide)).2.2.1⟩

set_option maxRecDepth 8192

/-- A concrete two-chapter outline for the C4 counterexample. -/
def c4item1 : ItemData := ⟨"chapter", ⟨some "1", none, some "a.md", none⟩, []⟩

def c4item2 : ItemData := ⟨"chapter", ⟨some "2", none, some "b.md", none⟩, []⟩

/-- The C4 counterexample configuration with story type `short_story`. -/
def c4cfgShort : Config :=
  { storyTypeRaw := some "short_story", items := [c4item1, c4item2] }

/-- The same configuration with story type `novel`. -/
def c4cfgNovel : Config :=
  { storyTypeRaw := some "novel", items := [c4item1, c4item2] }

/-- C4 counterexample: on an outline with two top-level items and story
type `short_story`, the RTF assembler does NOT insert a blank spacer
paragraph before the second item: it writes the page-break control word
before every non-first item, and its whole output is identical to the
compile of the same outline with story type `novel` (the RTF backend
never reads the story type). -/
theorem C4_short_story_counterexample :
    storyTypeOf c4cfgShort = "short_story"
    ∧ (Rtf.structureLoop fs0 true [c4item1, c4item2]).1
        = (Rtf.process_item fs0 c4item1).1 ++ "\\page\n"
          ++ (Rtf.process_item fs0 c4item2).1
    ∧ Rtf.compile_manuscript fs0 (.ok c4cfgShort) "c.yaml" "out"
        = Rtf.compile_manuscript fs0 (.ok c4cfgNovel) "c.yaml" "out" := by
  refine ⟨by decide, by decide, by decide⟩

/-- C4 (amended): in the document-library backend, with two or more
top-level items, the assembler inserts before each item except the first
a page break when the story type is `novel` and a blank spacer paragraph
when it is `short_story`, the separator being nonempty in both of these
cases; the RTF backend instead ignores the story type and inserts a page
break before each item except the first for every story type (so for
`short_story` it inserts a page break, not a blank spacer). -/
theorem C4_top_level_separators (fx : TextFx) (fs : FS) (st : String)
    (it : ItemData) (rest : List ItemData)
    (hst : st = "novel" ∨ st = "short_story") (hr : rest ≠ []) :
    (Docx.structureLoop fx fs st true (it :: rest)).1
      = (Docx.process_item fx fs st it).1 ++
        (rest.map fun j =>
          Docx.sepParas st ++ (Docx.process_item fx fs st j).1).flatten
    ∧ Docx.sepParas st ≠ []
    ∧ Docx.sepParas "novel" = [DPara.pageBreakPara]
    ∧ Docx.sepParas "short_story" = [DPara.para [] Align.left]
    ∧ (∀ (fs2 : FS) (jt : ItemData) (jrest : List ItemData),
        (Rtf.structureLoop fs2 true (jt :: jrest)).1
          = (Rtf.process_item fs2 jt).1 ++ (Rtf.structureLoop fs2 false jrest).1)
    ∧ (∀ (fs2 : FS) (jt : ItemData) (jrest : List ItemData),
        (Rtf.structureLoop fs2 false (jt :: jrest)).1
          = "\\page\n" ++
            ((Rtf.process_item fs2 jt).1 ++ (Rtf.structureLoop fs2 false jrest).1)) := by
  refine ⟨?_, ?_, by simp [Docx.sepParas], by simp [Docx.sepParas], ?_, ?_⟩
  · simp [Docx.structureLoop, Docx.comb, structureLoop_false]
  · rcases hst with h | h <;> subst h <;> simp [Docx.sepParas]
  · intro fs2 jt jrest
    simp [Rtf.structureLoop, Rtf.rcomb]
  · intro fs2 jt jrest
    simp [Rtf.structureLoop, Rtf.rcomb, String.append_assoc]

/-- The document part of a docx compile outcome, if any. -/
def docOf : Docx.Outcome → Option Docx.Doc
  | .fatal _ => none
  | .done d _ _ => some d

theorem afc_fst_ext (fx : TextFx) {fs1 fs2 : FS} (q : String)
    (h : fs1 q = fs2 q) :
    Docx.append_file_content fx fs1 q = Docx.append_file_content fx fs2 q := by
  simp only [Docx.append_file_content, h]

theorem emit_files_fst_congr (fx : TextFx) {fs1 fs2 : FS}
    (h : ∀ q, (Docx.append_file_content fx fs1 q).1
      = (Docx.append_file_content fx fs2 q).1) :
    ∀ ps, (Docx.emit_files fx fs1 ps).1 = (Docx.emit_files fx fs2 ps).1 := by
  intro ps
  induction ps with
  | nil => rfl
  | cons p rest ih =>
    cases rest with
    | nil => exact h p
    | cons q rest2 => simp [Docx.emit_files, Docx.comb, h p, ih]

theorem chapter_body_fst_congr (fx : TextFx) {fs1 fs2 : FS}
    (h : ∀ q, (Docx.append_file_content fx fs1 q).1
      = (Docx.append_file_content fx fs2 q).1) (c : ChapterData) :
    (Docx.chapter_body fx fs1 c).1 = (Docx.chapter_body fx fs2 c).1 := by
  unfold Docx.chapter_body
  cases c.file with
  | some f => exact h f
  | none =>
    cases c.files with
    | some ps => exact emit_files_fst_congr fx h ps
    | none => rfl

theorem process_chapter_fst_congr (fx : TextFx) {fs1 fs2 : FS}
    (h : ∀ q, (Docx.append_file_content fx fs1 q).1
      = (Docx.append_file_content fx fs2 q).1) (c : ChapterData) :
    (Docx.process_chapter fx fs1 c).1 = (Docx.process_chapter fx fs2 c).1 := by
  show Docx.headingParas fx c ++ _ = Docx.headingParas fx c ++ _
  rw [chapter_body_fst_congr fx h c]

theorem chaptersLoop_fst_congr (fx : TextFx) {fs1 fs2 : FS} (st : String)
    (h : ∀ q, (Docx.append_file_content fx fs1 q).1
      = (Docx.append_file_content fx fs2 q).1) :
    ∀ first l, (Docx.chaptersLoop fx fs1 st first l).1
      = (Docx.chaptersLoop fx fs2 st first l).1 := by
  intro first l
  induction l generalizing first with
  | nil => rfl
  | cons c rest ih =>
    simp [Docx.chaptersLoop, Docx.comb, process_chapter_fst_congr fx h c, ih false]

theorem process_item_fst_congr (fx : TextFx) {fs1 fs2 : FS} (st : String)
    (h : ∀ q, (Docx.append_file_content fx fs1 q).1
      = (Docx.append_file_content fx fs2 q).1) (it : ItemData) :
    (Docx.process_item fx fs1 st it).1 = (Docx.process_item fx fs2 st it).1 := by
  unfold Docx.process_item
  split_ifs
  · simp [Docx.comb, chaptersLoop_fst_congr fx st h true it.content]
  · exact process_chapter_fst_congr fx h it.data
  · exact chapter_body_fst_congr fx h it.data
  · rfl

theorem structureLoop_fst_congr (fx : TextFx) {fs1 fs2 : FS} (st : String)
    (h : ∀ q, (Docx.append_file_content fx fs1 q).1
      = (Docx.append_file_content fx fs2 q).1) :
    ∀ first l, (Docx.structureLoop fx fs1 st first l).1
      = (Docx.structureLoop fx fs2 st first l).1 := by
  intro first l
  induction l generalizing first with
  | nil => rfl
  | cons it rest ih =>
    simp [Docx.structureLoop, Docx.comb, process_item_fst_congr fx st h it, ih false]

theorem buildDoc_doc_congr (fx : TextFx) {fs1 fs2 : FS}
    (h : ∀ q, (Docx.append_file_content fx fs1 q).1
      = (Docx.append_file_content fx fs2 q).1) (cfg : Config) :
    (Docx.buildDoc fx fs1 cfg).1 = (Docx.buildDoc fx fs2 cfg).1 := by
  have hs := structureLoop_fst_congr fx (storyTypeOf cfg) h true cfg.items
  simp only [Docx.buildDoc, hs]

theorem update_paragraphs (d : Docx.Doc) :
    (Docx.calculate_and_update_word_count d).paragraphs = d.paragraphs := rfl

/-- C5: a fragment whose file is missing or unreadable contributes zero
paragraphs, produces a console warning, and never aborts: the whole
compilation behaves as if the file were present but empty, still runs to
completion and still ends the document with the final page break and end
mark. -/
theorem C5_soft_fail_fragment (fx : TextFx) (fs : FS) (p : String)
    (h : fs p = .missing ∨ ∃ e, fs p = .ioError e) :
    (Docx.append_file_content fx fs p).1 = []
    ∧ (Docx.append_file_content fx fs p).2 ≠ []
    ∧ (∀ src cf od,
        docOf (Docx.compile_manuscript fx fs src cf od)
          = docOf (Docx.compile_manuscript fx
              (fun q => if q = p then .ok "" else fs q) src cf od))
    ∧ (∀ cfg cf od, ∃ d w pa,
        Docx.compile_manuscript fx fs (.ok cfg) cf od = .done d w pa
        ∧ ∃ pre, d.paragraphs = pre ++ [DPara.pageBreakPara, Docx.endMarkPara]) := by
  have hq : ∀ q, (Docx.append_file_content fx fs q).1
      = (Docx.append_file_content fx (fun q => if q = p then .ok "" else fs q) q).1 := by
    intro q
    by_cases hqp : q = p
    · subst hqp
      rcases h with h | ⟨e, h⟩ <;>
        simp [Docx.append_file_content, h, Docx.paraOfLine, splitOnChar, pyStrip]
    · have hfs : fs q = (fun q2 => if q2 = p then FileRes.ok "" else fs q2) q := by
        simp [hqp]
      rw [@afc_fst_ext fx fs (fun q2 => if q2 = p then FileRes.ok "" else fs q2) q hfs]
  refine ⟨?_, ?_, ?_, ?_⟩
  · rcases h with h | ⟨e, h⟩ <;> simp [Docx.append_file_content, h]
  · rcases h with h | ⟨e, h⟩ <;> simp [Docx.append_file_content, h]
  · intro src cf od
    cases src with
    | missing => rfl
    | parseError e => rfl
    | ok cfg =>
      show some _ = some _
      have hb := buildDoc_doc_congr fx hq cfg
      cases hip : cfg.includeTitlePage <;>
        simp [Docx.compile_manuscript, hip, hb]
  · intro cfg cf od
    refine ⟨_, _, _, rfl, ?_⟩
    refine ⟨(if cfg.includeTitlePage then
        Docx.title_page_paras cfg (storyTypeOf cfg) else []) ++
      (Docx.structureLoop fx fs (storyTypeOf cfg) true cfg.items).1, ?_⟩
    cases hip : cfg.includeTitlePage <;>
      simp [hip, update_paragraphs, Docx.buildDoc]

/-- A file system where every file is missing, for witnesses. -/
def fsMissing : FS := fun _ => FileRes.missing

theorem C5_soft_fail_fragment_witness :
    (fsMissing "gone.md" = FileRes.missing
      ∨ ∃ e, fsMissing "gone.md" = FileRes.ioError e)
    ∧ (Docx.append_file_content fx0 fsMissing "gone.md").1 = []
    ∧ (Docx.append_file_content fx0 fsMissing "gone.md").2 ≠ [] :=
  ⟨Or.inl rfl,
    (C5_soft_fail_fragment fx0 fsMissing "gone.md" (Or.inl rfl)).1,
    (C5_soft_fail_fragment fx0 fsMissing "gone.md" (Or.inl rfl)).2.1⟩

/-- A concrete top-level text item for the C9 counterexample. -/
def textItem0 : ItemData := ⟨"text", ⟨none, none, some "a.md", none⟩, []⟩

/-- C9 counterexample: in the RTF backend the assembler does NOT process
a `text` item as a headingless chapter: it writes nothing for it and
logs the unknown-structure-type warning, even though the referenced file
has nonempty content. -/
theorem C9_text_item_counterexample :
    (Rtf.structureLoop fs0 true [textItem0]).1 = ""
    ∧ (Rtf.structureLoop fs0 true [textItem0]).2
        = ["--> WARNING: Unknown structure type \x27text\x27 found. Skipping."]
    ∧ (Rtf.append_file_content fs0 "a.md").1 ≠ "" := by
  refine ⟨rfl, rfl, by decide⟩

/-- C9 (amended): in the document-library backend a top-level `text` item
is processed like a chapter node with no heading step (it is dispatched
to `process_text_item`, which emits exactly the chapter body and no
heading paragraph) and is not treated as an unknown item type; the RTF
backend, however, has no `text` branch and skips such items with an
unknown-structure-type warning. -/
theorem C9_text_item_amended (fx : TextFx) (fs : FS) (st : String)
    (c : ChapterData) (ct : List ChapterData) :
    Docx.process_item fx fs st ⟨"text", c, ct⟩ = Docx.process_text_item fx fs c
    ∧ Docx.process_text_item fx fs c = Docx.chapter_body fx fs c
    ∧ Rtf.process_item fs ⟨"text", c, ct⟩
        = ("", ["--> WARNING: Unknown structure type \x27text\x27 found. Skipping."]) := by
  refine ⟨?_, rfl, ?_⟩
  · simp [Docx.process_item]
  · simp [Rtf.process_item]

theorem update_titleCell_placeholder (d : Docx.Doc)
    (h : d.titleCell = [Docx.placeholderText]) :
    (Docx.calculate_and_update_word_count d).titleCell
      = ["Approx. " ++
          commaFmt (pyRoundHalfEven100 (Docx.total_words d) * 100) ++ " words"] := by
  simp only [Docx.calculate_and_update_word_count, h, List.map_cons, List.map_nil]
  rw [if_pos (by decide)]

/-- C8: whenever a title page was rendered, after the body is rendered
the word-count placeholder on the title page is replaced by a value that
is a multiple of 100 and equals `round(total_words / 100) * 100` (Python
half-to-even rounding), where `total_words` sums the whitespace-delimited
tokens of every paragraph text in the document. -/
theorem C8_word_count (fx : TextFx) (fs : FS) (cfg : Config)
    (cf od : String) (d : Docx.Doc) (w : List String) (pa : String)
    (h1 : cfg.includeTitlePage = true)
    (h2 : Docx.compile_manuscript fx fs (.ok cfg) cf od = .done d w pa) :
    d.titleCell
      = ["Approx. " ++
          commaFmt (pyRoundHalfEven100 (Docx.total_words d) * 100) ++ " words"]
    ∧ 100 ∣ pyRoundHalfEven100 (Docx.total_words d) * 100 := by
  simp only [Docx.compile_manuscript, h1, if_true, Docx.Outcome.done.injEq] at h2
  obtain ⟨hd, hw, hp⟩ := h2
  have hcell : (Docx.buildDoc fx fs cfg).1.titleCell = [Docx.placeholderText] := by
    simp [Docx.buildDoc, h1]
  refine ⟨?_, ⟨pyRoundHalfEven100 (Docx.total_words d), Nat.mul_comm _ _⟩⟩
  rw [← hd]
  exact update_titleCell_placeholder _ hcell

theorem C8_word_count_witness :
    ({ } : Config).includeTitlePage = true
    ∧ ∃ d w pa,
        Docx.compile_manuscript fx0 fs0 (.ok { }) "c.yaml" "out" = .done d w pa
        ∧ d.titleCell
            = ["Approx. " ++
                commaFmt (pyRoundHalfEven100 (Docx.total_words d) * 100) ++ " words"]
        ∧ 100 ∣ pyRoundHalfEven100 (Docx.total_words d) * 100 := by
  refine ⟨rfl, _, _, _, rfl, ?_, ?_⟩
  · exact (C8_word_count fx0 fs0 { } "c.yaml" "out" _ _ _ rfl rfl).1
  · exact (C8_word_count fx0 fs0 { } "c.yaml" "out" _ _ _ rfl rfl).2

/-! ### Balanced bold pairs in the split-and-toggle formatter (C3) -/

/-- A character that is not a markdown token character. -/
def plainChar (c : Char) : Prop := c ≠ '*' ∧ c ≠ '_'

instance (c : Char) : Decidable (plainChar c) := by
  unfold plainChar
  infer_instance

/-- A nonempty literal segment with no markdown token characters. -/
def plainSeg (s : List Char) : Prop := s ≠ [] ∧ ∀ c ∈ s, plainChar c

instance (s : List Char) : Decidable (plainSeg s) := by
  unfold plainSeg
  infer_instance

/-- A text block in which every `**` token is balanced: alternating
outside/inside segments `o1 ** i1 ** o2 ** i2 ** ... tail`. -/
def interleavePairs (ps : List (List Char × List Char)) (tail : List Char) :
    List Char :=
  match ps with
  | [] => tail
  | (o, i) :: rest => o ++ '*' :: '*' :: (i ++ '*' :: '*' :: interleavePairs rest tail)

theorem tokenizeMd_mark_or_nil (rest : List Char)
    (h : rest = [] ∨ rest.headI = '*' ∨ rest.headI = '_') :
    tokenizeMd rest = [] ∨ ∃ m ts, tokenizeMd rest = Tok.mark m :: ts := by
  rcases rest with _ | ⟨c, r⟩
  · exact Or.inl rfl
  · rcases h with h | h | h
    · exact absurd h (by simp)
    · simp only [List.headI] at h
      subst h
      rcases r with _ | ⟨b, r2⟩
      · exact Or.inr ⟨['*'], [], by simp [tokenizeMd]⟩
      · by_cases hb : b = '*'
        · subst hb
          rcases r2 with _ | ⟨e, r3⟩
          · exact Or.inr ⟨['*', '*'], [], by simp [tokenizeMd]⟩
          · by_cases he : e = '*'
            · subst he
              exact Or.inr ⟨['*', '*', '*'], tokenizeMd r3, by simp [tokenizeMd]⟩
            · exact Or.inr ⟨['*', '*'], tokenizeMd (e :: r3), by simp [tokenizeMd, he]⟩
        · exact Or.inr ⟨['*'], tokenizeMd (b :: r2), by simp [tokenizeMd, hb]⟩
    · simp only [List.headI] at h
      subst h
      exact Or.inr ⟨['_'], tokenizeMd r, by simp [tokenizeMd]⟩

theorem tokenizeMd_plain_append :
    ∀ (a : List Char), a ≠ [] → (∀ c ∈ a, plainChar c) →
    ∀ rest, (rest = [] ∨ rest.headI = '*' ∨ rest.headI = '_') →
    tokenizeMd (a ++ rest) = Tok.text a :: tokenizeMd rest
  | [], ha, _, _, _ => absurd rfl ha
  | [c], _, hpl, rest, hrest => by
    have hc := hpl c (by simp)
    rw [List.singleton_append]
    rw [show tokenizeMd (c :: rest) =
        (match tokenizeMd rest with
         | .text s :: ts => .text (c :: s) :: ts
         | ts => .text [c] :: ts) from by simp [tokenizeMd, hc.1, hc.2]]
    rcases tokenizeMd_mark_or_nil rest hrest with h | ⟨m, ts, h⟩ <;> rw [h]
  | c :: c2 :: a3, _, hpl, rest, hrest => by
    have hc := hpl c (by simp)
    have ih := tokenizeMd_plain_append (c2 :: a3) (by simp)
      (fun d hd => hpl d (List.mem_cons_of_mem c hd)) rest hrest
    rw [List.cons_append]
    rw [show tokenizeMd (c :: (c2 :: a3 ++ rest)) =
        (match tokenizeMd (c2 :: a3 ++ rest) with
         | .text s :: ts => .text (c :: s) :: ts
         | ts => .text [c] :: ts) from by simp [tokenizeMd, hc.1, hc.2]]
    rw [ih]

theorem tokenizeMd_two_stars (X : List Char) (hX : X = [] ∨ X.headI ≠ '*') :
    tokenizeMd ('*' :: '*' :: X) = Tok.mark ['*', '*'] :: tokenizeMd X := by
  rcases X with _ | ⟨b, r⟩
  · simp [tokenizeMd]
  · rcases hX with h | h
    · simp at h
    · simp only [List.headI] at h
      simp [tokenizeMd, h]

theorem interleave_head_ok (ps : List (List Char × List Char)) (tail : List Char)
    (hps : ∀ p ∈ ps, plainSeg p.1 ∧ plainSeg p.2)
    (htail : ∀ c ∈ tail, plainChar c) :
    interleavePairs ps tail = [] ∨ (interleavePairs ps tail).headI ≠ '*' := by
  cases ps with
  | nil =>
    cases tail with
    | nil => exact Or.inl rfl
    | cons c r =>
      exact Or.inr (by simpa [interleavePairs, List.headI] using (htail c (by simp)).1)
  | cons p rest =>
    obtain ⟨o, i⟩ := p
    have ho := (hps (o, i) (by simp)).1
    rcases ho1 : o with _ | ⟨d, o2⟩
    · exact absurd ho1 ho.1
    · refine Or.inr ?_
      have hd : plainChar d := ho.2 d (by simp [ho1])
      simp [interleavePairs, ho1, List.headI, hd.1]

theorem tokenizeMd_interleave (ps : List (List Char × List Char)) (tail : List Char)
    (hps : ∀ p ∈ ps, plainSeg p.1 ∧ plainSeg p.2)
    (htail : ∀ c ∈ tail, plainChar c) :
    tokenizeMd (interleavePairs ps tail)
      = (ps.map fun p =>
          [Tok.text p.1, Tok.mark ['*', '*'], Tok.text p.2, Tok.mark ['*', '*']]).flatten
        ++ (if tail = [] then [] else [Tok.text tail]) := by
  induction ps with
  | nil =>
    by_cases ht : tail = []
    · simp [interleavePairs, ht, tokenizeMd]
    · have := tokenizeMd_plain_append tail ht htail [] (Or.inl rfl)
      simp only [List.append_nil] at this
      simp [interleavePairs, this, ht, tokenizeMd]
  | cons p rest ih =>
    obtain ⟨o, i⟩ := p
    have ho := (hps (o, i) (by simp)).1
    have hi := (hps (o, i) (by simp)).2
    have hrest : ∀ q ∈ rest, plainSeg q.1 ∧ plainSeg q.2 :=
      fun q hq => hps q (List.mem_cons_of_mem _ hq)
    have hY := interleave_head_ok rest tail hrest htail
    have step1 := tokenizeMd_plain_append o ho.1 ho.2
      ('*' :: '*' :: (i ++ '*' :: '*' :: interleavePairs rest tail))
      (Or.inr (Or.inl rfl))
    have step3 := tokenizeMd_plain_append i hi.1 hi.2
      ('*' :: '*' :: interleavePairs rest tail) (Or.inr (Or.inl rfl))
    have step2 := tokenizeMd_two_stars (i ++ '*' :: '*' :: interleavePairs rest tail)
      (by
        rcases hi1 : i with _ | ⟨d, i2⟩
        · exact absurd hi1 hi.1
        · exact Or.inr (by
            simpa [List.headI] using (hi.2 d (by simp [hi1])).1))
    have step4 := tokenizeMd_two_stars (interleavePairs rest tail) hY
    show tokenizeMd (o ++ '*' :: '*' :: (i ++ '*' :: '*' :: interleavePairs rest tail)) = _
    rw [step1, step2, step3, step4, ih hrest]
    simp

theorem runsAux_pairs (fx : TextFx) :
    ∀ (ps : List (List Char × List Char)) (tail : List Char),
    runsAux fx false false
      ((ps.map fun p =>
          [Tok.text p.1, Tok.mark ['*', '*'], Tok.text p.2, Tok.mark ['*', '*']]).flatten
        ++ (if tail = [] then [] else [Tok.text tail]))
      = (ps.map fun p =>
          [(⟨spTok fx (String.mk p.1), false, false⟩ : Span),
           ⟨spTok fx (String.mk p.2), true, false⟩]).flatten
        ++ (if tail = [] then []
            else [(⟨spTok fx (String.mk tail), false, false⟩ : Span)]) := by
  intro ps tail
  induction ps with
  | nil => by_cases ht : tail = [] <;> simp [ht, runsAux]
  | cons p rest ih => simp [runsAux, ih]

/-- C3: for a text block in which every `**` token is balanced (outside
and inside segments free of token characters and nonempty), the
split-and-toggle formatter emits each enclosed segment as a span with
bold true and every segment outside the pairs as a span with bold
false. -/
theorem C3_balanced_bold (fx : TextFx) (ps : List (List Char × List Char))
    (tail : List Char)
    (hps : ∀ p ∈ ps, plainSeg p.1 ∧ plainSeg p.2)
    (htail : ∀ c ∈ tail, plainChar c) :
    add_smart_text fx (interleavePairs ps tail)
      = (ps.map fun p =>
          [(⟨spTok fx (String.mk p.1), false, false⟩ : Span),
           ⟨spTok fx (String.mk p.2), true, false⟩]).flatten
        ++ (if tail = [] then []
            else [(⟨spTok fx (String.mk tail), false, false⟩ : Span)]) := by
  rw [add_smart_text, tokenizeMd_interleave ps tail hps htail, runsAux_pairs]

theorem C3_balanced_bold_witness :
    (∀ p ∈ [((['o'], ['b']) : List Char × List Char)], plainSeg p.1 ∧ plainSeg p.2)
    ∧ (∀ c ∈ ['t'], plainChar c)
    ∧ add_smart_text fx0 (interleavePairs [(['o'], ['b'])] ['t'])
        = [⟨"o", false, false⟩, ⟨"b", true, false⟩, ⟨"t", false, false⟩] := by
  refine ⟨by decide, by decide, ?_⟩
  exact (C3_balanced_bold fx0 [(['o'], ['b'])] ['t'] (by decide) (by decide)).trans
    (by decide)

/-! ### Unclosed bold markers in the RTF converter (C2) -/

/-- A character inert for every transformation step of `convert_to_rtf`:
not a token character, not an RTF special, not part of an em-dash or a
paragraph break. -/
def rtfPlain (c : Char) : Prop :=
  c ≠ '*' ∧ c ≠ '_' ∧ c ≠ '\\' ∧ c ≠ '\x7b' ∧ c ≠ '\x7d' ∧ c ≠ '-' ∧ c ≠ '\n'

instance (c : Char) : Decidable (rtfPlain c) := by
  unfold rtfPlain
  infer_instance

theorem swp_self_append (pat bs : List Char) :
    startsWithPat pat (pat ++ bs) = true := by
  induction pat with
  | nil => rfl
  | cons p ps ih => simp [startsWithPat, ih]

theorem swp_head_ne (p c : Char) (ps cs : List Char) (h : c ≠ p) :
    startsWithPat (p :: ps) (c :: cs) = false := by
  have hpc : (p == c) = false := by
    simp only [beq_eq_false_iff_ne]
    exact fun he => h he.symm
  simp [startsWithPat, hpc]

theorem fsp_none_head_notin (p : Char) (ps : List Char) :
    ∀ cs, p ∉ cs → Rtf.findSplitP (p :: ps) cs = none := by
  intro cs
  induction cs with
  | nil => intro h; rfl
  | cons c r ih =>
    intro h
    have h1 : c ≠ p := fun he => h (by simp [he])
    have h2 : p ∉ r := fun hm => h (List.mem_cons_of_mem c hm)
    simp [Rtf.findSplitP, swp_head_ne p c ps r h1, ih h2]

/-- One-step unfolding of `findSplitP` on a nonempty list. -/
theorem fsp_cons (pat : List Char) (c : Char) (rest : List Char) :
    Rtf.findSplitP pat (c :: rest)
      = if startsWithPat pat (c :: rest) then
          some ([], (c :: rest).drop pat.length)
        else
          match Rtf.findSplitP pat rest with
          | some (b, a) => some (c :: b, a)
          | none => none := rfl

theorem fsp_append (p : Char) (ps : List Char) :
    ∀ (as bs : List Char), p ∉ as →
    Rtf.findSplitP (p :: ps) (as ++ p :: (ps ++ bs)) = some (as, bs) := by
  intro as
  induction as with
  | nil =>
    intro bs _
    simp only [List.nil_append]
    have hsw : startsWithPat (p :: ps) (p :: (ps ++ bs)) = true := by
      simpa using swp_self_append (p :: ps) bs
    rw [fsp_cons, hsw]
    simp [List.drop_left]
  | cons a as2 ih =>
    intro bs ha
    have h1 : a ≠ p := fun he => ha (by simp [he])
    have h2 : p ∉ as2 := fun hm => ha (List.mem_cons_of_mem a hm)
    rw [List.cons_append, fsp_cons, swp_head_ne p a ps _ h1]
    simp [ih bs h2]

theorem swp3_false (bs : List Char) (hb : '*' ∉ bs) :
    startsWithPat ['*', '*', '*'] ('*' :: '*' :: bs) = false := by
  rcases bs with _ | ⟨c, r⟩
  · decide
  · have hc : c ≠ '*' := fun he => hb (by simp [he])
    simpa [startsWithPat] using swp_head_ne '*' c [] r hc

theorem swp2_false (bs : List Char) (hb : '*' ∉ bs) :
    startsWithPat ['*', '*', '*'] ('*' :: bs) = false := by
  rcases bs with _ | ⟨c, r⟩
  · decide
  · have hc : c ≠ '*' := fun he => hb (by simp [he])
    simpa [startsWithPat] using swp_head_ne '*' c ['*'] r hc

theorem fsp3_none (as bs : List Char) (ha : '*' ∉ as) (hb : '*' ∉ bs) :
    Rtf.findSplitP ['*', '*', '*'] (as ++ '*' :: '*' :: bs) = none := by
  induction as with
  | nil =>
    have h2 : Rtf.findSplitP ['*', '*', '*'] ('*' :: bs) = none := by
      rw [fsp_cons, swp2_false bs hb]
      simp [fsp_none_head_notin '*' ['*', '*'] bs hb]
    simp only [List.nil_append]
    rw [fsp_cons, swp3_false bs hb]
    simp [h2]
  | cons a as2 ih =>
    have h1 : a ≠ '*' := fun he => ha (by simp [he])
    have h2 : '*' ∉ as2 := fun hm => ha (List.mem_cons_of_mem a hm)
    rw [List.cons_append, fsp_cons, swp_head_ne '*' a ['*', '*'] _ h1]
    simp [ih h2]

theorem pyReplaceF_of_none (f : Nat) (pat rep cs : List Char)
    (h : Rtf.findSplitP pat cs = none) : Rtf.pyReplaceF f pat rep cs = cs := by
  cases f with
  | zero => rfl
  | succ f2 => simp [Rtf.pyReplaceF, h]

theorem pyReplace_head_notin (p : Char) (ps rep cs : List Char) (h : p ∉ cs) :
    Rtf.pyReplace (p :: ps) rep cs = cs :=
  pyReplaceF_of_none _ _ _ _ (fsp_none_head_notin p ps cs h)

theorem subDelimF_of_none (f : Nat) (pat pre post cs : List Char)
    (h : Rtf.findSplitP pat cs = none) : Rtf.subDelimF f pat pre post cs = cs := by
  cases f with
  | zero => rfl
  | succ f2 => simp [Rtf.subDelimF, h]

theorem subDelimF_no_closer (f : Nat) (pat pre post cs b rest : List Char)
    (h1 : Rtf.findSplitP pat cs = some (b, rest))
    (h2 : Rtf.findSplitP pat rest = none) :
    Rtf.subDelimF f pat pre post cs = cs := by
  cases f with
  | zero => rfl
  | succ f2 => simp [Rtf.subDelimF, h1, h2]

/-- One-step unfolding of `subDelimF` at positive fuel. -/
theorem subDelimF_succ (f : Nat) (pat pre post cs : List Char) :
    Rtf.subDelimF (f + 1) pat pre post cs
      = match Rtf.findSplitP pat cs with
        | none => cs
        | some (b, rest) =>
          match Rtf.findSplitP pat rest with
          | none => cs
          | some (mid, rest2) =>
            b ++ pre ++ mid ++ post ++ Rtf.subDelimF f pat pre post rest2 := rfl

theorem subDelim_head_notin (p : Char) (ps pre post cs : List Char) (h : p ∉ cs) :
    Rtf.subDelim (p :: ps) pre post cs = cs :=
  subDelimF_of_none _ _ _ _ _ (fsp_none_head_notin p ps cs h)

theorem subDelim_double_star_unchanged (pre post as bs : List Char)
    (ha : '*' ∉ as) (hb : '*' ∉ bs) :
    Rtf.subDelim ['*', '*'] pre post (as ++ '*' :: '*' :: bs)
      = as ++ '*' :: '*' :: bs := by
  have h1 : Rtf.findSplitP ['*', '*'] (as ++ '*' :: '*' :: bs) = some (as, bs) := by
    simpa using fsp_append '*' ['*'] as bs ha
  exact subDelimF_no_closer _ _ _ _ _ as bs h1 (fsp_none_head_notin '*' ['*'] bs hb)

theorem subDelim_single_star (pre post as bs : List Char)
    (ha : '*' ∉ as) (hb : '*' ∉ bs) :
    Rtf.subDelim ['*'] pre post (as ++ '*' :: '*' :: bs)
      = as ++ pre ++ post ++ bs := by
  have hlen : (as ++ '*' :: '*' :: bs).length = (as.length + (bs.length + 1)) + 1 := by
    simp [List.length_append]
    omega
  have h1 : Rtf.findSplitP ['*'] (as ++ '*' :: '*' :: bs) = some (as, '*' :: bs) := by
    simpa using fsp_append '*' [] as ('*' :: bs) ha
  have h2 : Rtf.findSplitP ['*'] ('*' :: bs) = some ([], bs) := by
    simpa using fsp_append '*' [] [] bs (by simp)
  rw [Rtf.subDelim, hlen, subDelimF_succ]
  simp only [h1, h2]
  rw [subDelimF_of_none _ _ _ _ bs (fsp_none_head_notin '*' [] bs hb)]
  simp

theorem containsSub_head_notin (p : Char) (ps : List Char) :
    ∀ cs, p ∉ cs → containsSub (p :: ps) cs = false := by
  intro cs
  induction cs with
  | nil => intro h; rfl
  | cons c r ih =>
    intro h
    have h1 : c ≠ p := fun he => h (by simp [he])
    have h2 : p ∉ r := fun hm => h (List.mem_cons_of_mem c hm)
    simp [containsSub, swp_head_ne p c ps r h1, ih h2]

theorem no_bold_group (as bs : List Char) (ha : '\x7b' ∉ as) (hb : '\x7b' ∉ bs) :
    containsSub ['\x7b', '\\', 'b']
      (as ++ '\x7b' :: '\\' :: 'i' :: ' ' :: '\x7d' :: bs) = false := by
  induction as with
  | nil =>
    simp [containsSub, startsWithPat,
      containsSub_head_notin '\x7b' ['\\', 'b'] bs hb]
  | cons a as2 ih =>
    have h1 : a ≠ '\x7b' := fun he => ha (by simp [he])
    have h2 : '\x7b' ∉ as2 := fun hm => ha (List.mem_cons_of_mem a hm)
    simp [containsSub, swp_head_ne '\x7b' a ['\\', 'b'] _ h1, ih h2]

/-- C2 counterexample: for the text block `a**b`, whose single `**` token
is unclosed, the RTF conversion does NOT leave the marker as literal text:
the output is `a{\i }b` (the italic rule consumed the two stars as an
empty italic group) and contains no `**` and indeed no star at all. -/
theorem C2_unclosed_marker_counterexample :
    Rtf.convert_to_rtf "a**b" = "a\x7b\\i \x7db"
    ∧ containsSub ['*', '*'] (Rtf.convert_to_rtf "a**b").toList = false
    ∧ containsSub ['*'] (Rtf.convert_to_rtf "a**b").toList = false := by
  refine ⟨by decide, by decide, by decide⟩

/-- C2 (amended): for a text block consisting of plain text around a
single unclosed `**` marker, the RTF conversion applies no bold
formatting (no `{\b` group appears in the output, and the text after the
marker is emitted unchanged outside any group), but the marker is not
left as literal text: the two stars are consumed by the single-star
italic rule and replaced by the empty italic group `{\i }`. -/
theorem C2_unclosed_marker_amended (as bs : List Char)
    (ha : ∀ c ∈ as, rtfPlain c) (hb : ∀ c ∈ bs, rtfPlain c) :
    Rtf.convChars (as ++ '*' :: '*' :: bs)
      = as ++ '\x7b' :: '\\' :: 'i' :: ' ' :: '\x7d' :: bs
    ∧ Rtf.convert_to_rtf (String.mk (as ++ '*' :: '*' :: bs))
      = String.mk (as ++ '\x7b' :: '\\' :: 'i' :: ' ' :: '\x7d' :: bs)
    ∧ containsSub ['*', '*'] (Rtf.convChars (as ++ '*' :: '*' :: bs)) = false
    ∧ containsSub ['\x7b', '\\', 'b']
        (Rtf.convChars (as ++ '*' :: '*' :: bs)) = false := by
  have hstar_as : '*' ∉ as := fun h => (ha _ h).1 rfl
  have hstar_bs : '*' ∉ bs := fun h => (hb _ h).1 rfl
  have hmem : ∀ c, c ∈ as ++ '*' :: '*' :: bs → c = '*' ∨ rtfPlain c := by
    intro c hc
    rcases List.mem_append.mp hc with h | h
    · exact Or.inr (ha c h)
    · simp only [List.mem_cons] at h
      rcases h with h | h | h
      · exact Or.inl h
      · exact Or.inl h
      · exact Or.inr (hb c h)
  have hbsl : '\\' ∉ as ++ '*' :: '*' :: bs := by
    intro h
    rcases hmem _ h with h1 | h1
    · exact absurd h1 (by decide)
    · exact h1.2.2.1 rfl
  have hlb : '\x7b' ∉ as ++ '*' :: '*' :: bs := by
    intro h
    rcases hmem _ h with h1 | h1
    · exact absurd h1 (by decide)
    · exact h1.2.2.2.1 rfl
  have hrb : '\x7d' ∉ as ++ '*' :: '*' :: bs := by
    intro h
    rcases hmem _ h with h1 | h1
    · exact absurd h1 (by decide)
    · exact h1.2.2.2.2.1 rfl
  have hout_mem : ∀ c, c ∈ as ++ '\x7b' :: '\\' :: 'i' :: ' ' :: '\x7d' :: bs →
      c ∈ as ∨ c ∈ bs ∨ c ∈ ['\x7b', '\\', 'i', ' ', '\x7d'] := by
    intro c hc
    rcases List.mem_append.mp hc with h | h
    · exact Or.inl h
    · simp only [List.mem_cons] at h
      rcases h with h | h | h | h | h | h
      · exact Or.inr (Or.inr (by simp [h]))
      · exact Or.inr (Or.inr (by simp [h]))
      · exact Or.inr (Or.inr (by simp [h]))
      · exact Or.inr (Or.inr (by simp [h]))
      · exact Or.inr (Or.inr (by simp [h]))
      · exact Or.inr (Or.inl h)
  have hund_out : '_' ∉ as ++ '\x7b' :: '\\' :: 'i' :: ' ' :: '\x7d' :: bs := by
    intro h
    rcases hout_mem _ h with h1 | h1 | h1
    · exact (ha _ h1).2.1 rfl
    · exact (hb _ h1).2.1 rfl
    · exact absurd h1 (by decide)
  have hdash_out : '-' ∉ as ++ '\x7b' :: '\\' :: 'i' :: ' ' :: '\x7d' :: bs := by
    intro h
    rcases hout_mem _ h with h1 | h1 | h1
    · exact (ha _ h1).2.2.2.2.2.1 rfl
    · exact (hb _ h1).2.2.2.2.2.1 rfl
    · exact absurd h1 (by decide)
  have hnl_out : '\n' ∉ as ++ '\x7b' :: '\\' :: 'i' :: ' ' :: '\x7d' :: bs := by
    intro h
    rcases hout_mem _ h with h1 | h1 | h1
    · exact (ha _ h1).2.2.2.2.2.2 rfl
    · exact (hb _ h1).2.2.2.2.2.2 rfl
    · exact absurd h1 (by decide)
  have hstar_out : '*' ∉ as ++ '\x7b' :: '\\' :: 'i' :: ' ' :: '\x7d' :: bs := by
    intro h
    rcases hout_mem _ h with h1 | h1 | h1
    · exact hstar_as h1
    · exact hstar_bs h1
    · exact absurd h1 (by decide)
  have hlb_as : '\x7b' ∉ as := fun h => (ha _ h).2.2.2.1 rfl
  have hlb_bs : '\x7b' ∉ bs := fun h => (hb _ h).2.2.2.1 rfl
  have hmain : Rtf.convChars (as ++ '*' :: '*' :: bs)
      = as ++ '\x7b' :: '\\' :: 'i' :: ' ' :: '\x7d' :: bs := by
    have e1 := pyReplace_head_notin '\\' [] ['\\', '\\'] _ hbsl
    have e2 := pyReplace_head_notin '\x7b' [] ['\\', '\x7b'] _ hlb
    have e3 := pyReplace_head_notin '\x7d' [] ['\\', '\x7d'] _ hrb
    have e4 := subDelimF_of_none (as ++ '*' :: '*' :: bs).length
      ['*', '*', '*'] Rtf.boldItalicPre ['\x7d'] _ (fsp3_none as bs hstar_as hstar_bs)
    have e5 := subDelim_double_star_unchanged Rtf.boldPre ['\x7d'] as bs
      hstar_as hstar_bs
    have e6 := subDelim_single_star Rtf.italicPre ['\x7d'] as bs hstar_as hstar_bs
    have e6' : Rtf.subDelim ['*'] Rtf.italicPre ['\x7d'] (as ++ '*' :: '*' :: bs)
        = as ++ '\x7b' :: '\\' :: 'i' :: ' ' :: '\x7d' :: bs := by
      rw [e6]
      simp [Rtf.italicPre]
    have e7 := subDelim_head_notin '_' [] Rtf.italicPre ['\x7d'] _ hund_out
    have e8 := pyReplace_head_notin '-' ['-', '-'] "\\emdash ".toList _ hdash_out
    have e9 := pyReplace_head_notin '\n' [] "\\par\n".toList _ hnl_out
    show Rtf.convChars (as ++ '*' :: '*' :: bs) = _
    rw [Rtf.convChars]
    rw [e1, e2, e3]
    rw [show Rtf.subDelim ['*', '*', '*'] Rtf.boldItalicPre ['\x7d']
        (as ++ '*' :: '*' :: bs) = as ++ '*' :: '*' :: bs from e4]
    rw [e5, e6', e7, e8, e9]
  refine ⟨hmain, ?_, ?_, ?_⟩
  · show String.mk (Rtf.convChars (String.mk (as ++ '*' :: '*' :: bs)).toList) = _
    rw [show (String.mk (as ++ '*' :: '*' :: bs)).toList
        = as ++ '*' :: '*' :: bs from rfl, hmain]
  · rw [hmain]
    exact containsSub_head_notin '*' ['*'] _ hstar_out
  · rw [hmain]
    exact no_bold_group as bs hlb_as hlb_bs

theorem C2_unclosed_marker_amended_witness :
    (∀ c ∈ ['a'], rtfPlain c) ∧ (∀ c ∈ ['b'], rtfPlain c)
    ∧ Rtf.convChars (['a'] ++ '*' :: '*' :: ['b'])
        = ['a'] ++ '\x7b' :: '\\' :: 'i' :: ' ' :: '\x7d' :: ['b'] :=
  ⟨by decide, by decide,
    (C2_unclosed_marker_amended ['a'] ['b'] (by decide) (by decide)).1⟩

theorem C4_top_level_separators_witness :
    ("novel" = "novel" ∨ "novel" = "short_story")
    ∧ ([⟨"chapter", ⟨some "2", none, none, none⟩, []⟩] : List ItemData) ≠ []
    ∧ Docx.sepParas "novel" ≠ [] :=
  ⟨Or.inl rfl, by decide,
    (C4_top_level_separators fx0 fs0 "novel"
      ⟨"chapter", ⟨some "1", none, none, none⟩, []⟩
      [⟨"chapter", ⟨some "2", none, none, none⟩, []⟩]
      (Or.inl rfl) (by decide)).2.1⟩

end Wptc
